import Mathlib

/-!
# mbta-v3-go: vehicle request construction

A shallow embedding of `mbta/vehicles.go` and `mbta/vehicles_configs.go`.

Go strings are byte sequences, so a string is a list of bytes.  The two
files declare the same names; the declarations of `vehicles.go` live in the
namespace `Vehicles`, those of `vehicles_configs.go` in `VehiclesConfigs`.
The parts of Go's `net/url` and `strings` that the code calls
(`URL.Query`, `Values.Add`, `Values.Encode`, `strings.Join`, `fmt.Sprintf`
with `%s` verbs) are embedded from the standard library.
-/

namespace Mbta

/-! ## Go strings -/

/-- One byte of a Go string. -/
abbrev Byte := Fin 256

/-- A Go string: a sequence of bytes. -/
abbrev GoString := List Byte

/-- The byte of a character (used on ASCII literals only, where it is the
UTF-8 encoding of the character). -/
def byteOf (c : Char) : Byte := Fin.ofNat c.toNat

/-- The Go string of an ASCII literal. -/
def str (s : String) : GoString := s.toList.map byteOf

/-- Go's `strings.Join(elems, sep)`. -/
def Join : List GoString → GoString → GoString
  | [], _ => []
  | [x], _ => x
  | x :: y :: rest, sep => x ++ sep ++ Join (y :: rest) sep

/-- Go's string comparison `a <= b`: bytewise lexicographic. -/
def strLE : GoString → GoString → Bool
  | [], _ => true
  | _ :: _, [] => false
  | a :: as, b :: bs => if a < b then true else if b < a then false else strLE as bs

/-! ## net/url: escaping of query components -/

/-- The `shouldEscape(c, encodeQueryComponent)` of `net/url`: everything but
ASCII letters, digits and `-`, `_`, `.`, `~` is escaped. -/
def shouldEscape (c : Byte) : Bool :=
  if (97 ≤ c.val ∧ c.val ≤ 122) ∨ (65 ≤ c.val ∧ c.val ≤ 90) ∨ (48 ≤ c.val ∧ c.val ≤ 57) then false
  else if c.val = 45 ∨ c.val = 95 ∨ c.val = 46 ∨ c.val = 126 then false
  else true

/-- The digit `"0123456789ABCDEF"[n]` of `net/url`. -/
def upperhex (n : Nat) : Byte :=
  if n < 10 then Fin.ofNat (48 + n) else Fin.ofNat (55 + n)

/-- The `ishex` of `net/url`. -/
def ishex (c : Byte) : Bool :=
  if 48 ≤ c.val ∧ c.val ≤ 57 then true
  else if 97 ≤ c.val ∧ c.val ≤ 102 then true
  else if 65 ≤ c.val ∧ c.val ≤ 70 then true
  else false

/-- The `unhex` of `net/url`. -/
def unhex (c : Byte) : Nat :=
  if 48 ≤ c.val ∧ c.val ≤ 57 then c.val - 48
  else if 97 ≤ c.val ∧ c.val ≤ 102 then c.val - 97 + 10
  else if 65 ≤ c.val ∧ c.val ≤ 70 then c.val - 65 + 10
  else 0

/-- What `escape(s, encodeQueryComponent)` writes for one byte: `+` for a
space, `%XX` for a byte that must be escaped, the byte itself otherwise. -/
def escapeByte (c : Byte) : GoString :=
  if c.val = 32 then [43]
  else if shouldEscape c then [37, upperhex (c.val >>> 4), upperhex (c.val &&& 15)]
  else [c]

/-- Go's `url.QueryEscape`. -/
def QueryEscape (s : GoString) : GoString := s.flatMap escapeByte

/-- Go's `url.QueryUnescape`; `none` stands for the `EscapeError`. -/
def QueryUnescape : GoString → Option GoString
  | [] => some []
  | c :: rest =>
    if c.val = 37 then
      match rest with
      | a :: b :: rest2 =>
        if ishex a && ishex b then
          (QueryUnescape rest2).map (fun t => Fin.ofNat (unhex a <<< 4 ||| unhex b) :: t)
        else none
      | _ => none
    else if c.val = 43 then (QueryUnescape rest).map (fun t => (32 : Byte) :: t)
    else (QueryUnescape rest).map (fun t => c :: t)

/-! ## net/url: `Values` -/

/-- Go's `url.Values`, a `map[string][]string`, as an association list; the
entry of a key is the first pair that carries it. -/
abbrev Values := List (GoString × List GoString)

/-- The map read `v[key]`: the values of `key`, `nil` when the key is absent. -/
def Values.get : Values → GoString → List GoString
  | [], _ => []
  | (k, xs) :: rest, key => if k = key then xs else Values.get rest key

/-- Go's `Values.Has`: whether the key is set. -/
def Values.Has (v : Values) (key : GoString) : Bool := v.any (fun p => decide (p.1 = key))

/-- Go's `Values.Add`: `v[key] = append(v[key], value)`. -/
def Values.Add : Values → GoString → GoString → Values
  | [], key, value => [(key, [value])]
  | (k, xs) :: rest, key, value =>
    if k = key then (k, xs ++ [value]) :: rest else (k, xs) :: Values.Add rest key value

/-- The keys of the map (`for k := range v`), each once. -/
def Values.keys (v : Values) : List GoString := (v.map Prod.fst).dedup

/-- The text `QueryEscape(k) + "=" + QueryEscape(x)` that `Encode` writes for
one value `x` of the key `k`. -/
def encodePair (k x : GoString) : GoString := QueryEscape k ++ [61] ++ QueryEscape x

/-- Go's `Values.Encode`: the keys are sorted, and every value of every key
is written as `key=value`, both escaped, the pairs separated by `&` (the
`&` is written before every pair but the first, as every pair is non-empty). -/
def Values.Encode (v : Values) : GoString :=
  let keys := v.keys.insertionSort (fun a b => strLE a b = true)
  Join (keys.flatMap (fun k => (v.get k).map (encodePair k))) [38]

/-- Go's `strings.Cut(s, sep)` for a one-byte separator: the text before the
first `sep`, the text after it, and whether `sep` was found. -/
def Cut : GoString → Byte → GoString × GoString × Bool
  | [], _ => ([], [], false)
  | c :: rest, sep =>
    if c = sep then ([], rest, true)
    else ((c :: (Cut rest sep).1), (Cut rest sep).2.1, (Cut rest sep).2.2)

/-- The successive `key` pieces that the loop of `parseQuery` cuts off at
each `&`. -/
def pieces : GoString → List GoString
  | [] => [[]]
  | c :: rest =>
    if c.val = 38 then [] :: pieces rest
    else match pieces rest with
      | [] => [[c]]
      | p :: ps => (c :: p) :: ps

/-- One round of the loop of `parseQuery` of `net/url` (Go 1.17 and later)
on the piece `key`: a piece with a semicolon, an empty piece and a piece
whose key or value does not unescape are skipped; otherwise the value is
appended to the key.  `Encode` escapes semicolons, so what is proved below
about parsing the text that `Encode` wrote does not rest on the first
case. -/
def parseStep (m : Values) (key : GoString) : Values :=
  if key.any (fun b => decide (b.val = 59)) then m
  else if key = [] then m
  else
    match QueryUnescape (Cut key 61).1, QueryUnescape (Cut key 61).2.1 with
    | some key1, some value1 => m.Add key1 value1
    | _, _ => m

/-- Go's `url.ParseQuery`, its error dropped (as `URL.Query` does): the
loop of `parseQuery` runs once for each piece between `&`s. -/
def ParseQuery (query : GoString) : Values := (pieces query).foldl parseStep []

/-! ## net/http: the request -/

/-- A (non-nil) `context.Context`; `Background` is `context.Background()`. -/
inductive Context where
  | Background
  | Other (tag : Nat)
  deriving DecidableEq, Repr

/-- The fields of `url.URL` that the code reads or writes. -/
structure URL where
  Path : GoString
  RawQuery : GoString
  deriving DecidableEq, Repr

/-- The fields of `http.Request` that the code reads or writes. -/
structure Request where
  Method : GoString
  URL : URL
  ctx : Context
  deriving DecidableEq, Repr

/-- Go's `URL.Query`: the parsed `RawQuery`, malformed pairs dropped. -/
def URL.Query (u : URL) : Values := ParseQuery u.RawQuery

/-- The assignment `req.URL.RawQuery = raw`. -/
def Request.setRawQuery (req : Request) (raw : GoString) : Request :=
  { req with URL := { req.URL with RawQuery := raw } }

/-- Go's `Request.WithContext`: a copy of the request with the context
replaced. -/
def Request.WithContext (req : Request) (ctx : Context) : Request := { req with ctx := ctx }

/-- A non-nil Go `error`. -/
structure Error where
  msg : GoString
  deriving DecidableEq, Repr

/-- Go's `fmt.Sprintf("/%s/%s", a, b)`. -/
def Sprintf_s_s (a b : GoString) : GoString := str "/" ++ a ++ str "/" ++ b

/-! ## The query helpers -/

/-- Modelled from the spec: `addToQuery` is called by the encoders but
declared in another file of the package; it adds the parameter only if the
value is non-empty. -/
def addToQuery (q : Values) (key value : GoString) : Values :=
  if value = [] then q else q.Add key value

/-- Modelled from the spec: `addCommaSeparatedListToQuery` is called by the
encoders but declared in another file of the package; it adds the
parameter only if the list is non-empty, the values joined into one
parameter value with a comma separator, in the order given. -/
def addCommaSeparatedListToQuery (q : Values) (key : GoString) (values : List GoString) : Values :=
  if values = [] then q else q.Add key (Join values (str ","))

/-! ## The client -/

/-- The unexported client behind the service: `newRequest(method, path, nil)`
returns a request pointer (`none` is `nil`) and an error (`none` is `nil`);
`do(req, &v)` returns what it leaves in the destination `v` and an error.
The destination is a `[]Vehicle` for the list operation and a `Vehicle` for
the item operation.  The `Vehicle` record is declared in another file and
is the parameter `V`, its zero value `default`. -/
structure Client (V : Type) where
  newRequest : GoString → GoString → Option Request × Option Error
  doList : Request → List V → List V × Option Error
  doOne : Request → V → V × Option Error

/-- A call that a service operation makes on its client. -/
inductive Call where
  | newRequest (method path : GoString)
  | do_ (req : Request)
  deriving DecidableEq, Repr

/-- How a service operation ends: it returns a result and an error
(`none` is `nil`), or it panics on a nil pointer dereference. -/
inductive Outcome (α : Type) where
  | returned (result : α) (err : Option Error)
  | nilPointerDereference
  deriving DecidableEq, Repr

/-- A run of a service operation: the calls made on the client, in order,
and how the operation ended. -/
structure Run (α : Type) where
  calls : List Call
  outcome : Outcome α
  deriving DecidableEq, Repr

/-! ## vehicles.go -/

namespace Vehicles

/-- The constant `vehiclesAPIPath`. -/
def vehiclesAPIPath : GoString := str "/vehicles"

/-- The type `GetAllVehiclesSortByType`, a string. -/
abbrev GetAllVehiclesSortByType := GoString

def GetAllVehiclesSortByBearingAscending : GetAllVehiclesSortByType := str "bearing"
def GetAllVehiclesSortByBearingDescending : GetAllVehiclesSortByType := str "-bearing"
def GetAllVehiclesSortByCurrentStatusAscending : GetAllVehiclesSortByType := str "current_status"
def GetAllVehiclesSortByCurrentStatusDescending : GetAllVehiclesSortByType := str "-current_status"
def GetAllVehiclesSortByCurrentStopSequenceAscending : GetAllVehiclesSortByType :=
  str "current_stop_sequence"
def GetAllVehiclesSortByCurrentStopSequenceDescending : GetAllVehiclesSortByType :=
  str "-current_stop_sequence"
def GetAllVehiclesSortByDirectionIDAscending : GetAllVehiclesSortByType := str "direction_id"
def GetAllVehiclesSortByDirectionIDDescending : GetAllVehiclesSortByType := str "-direction_id"
def GetAllVehiclesSortByLabelAscending : GetAllVehiclesSortByType := str "label"
def GetAllVehiclesSortByLabelDescending : GetAllVehiclesSortByType := str "-label"
def GetAllVehiclesSortByLatitudeAscending : GetAllVehiclesSortByType := str "latitude"
def GetAllVehiclesSortByLatitudeDescending : GetAllVehiclesSortByType := str "-latitude"
def GetAllVehiclesSortByLongitudeAscending : GetAllVehiclesSortByType := str "longitude"
def GetAllVehiclesSortByLongitudeDescending : GetAllVehiclesSortByType := str "-longitude"
def GetAllVehiclesSortBySpeedAscending : GetAllVehiclesSortByType := str "speed"
def GetAllVehiclesSortBySpeedDescending : GetAllVehiclesSortByType := str "-speed"
def GetAllVehiclesSortByUpdatedAtAscending : GetAllVehiclesSortByType := str "updated_at"
def GetAllVehiclesSortByUpdatedAtDescending : GetAllVehiclesSortByType := str "-updated_at"

/-- The struct `GetAllVehiclesRequestConfig` of `vehicles.go` (its field
`Sort` is `Sort_` here, `Sort` being reserved). -/
structure GetAllVehiclesRequestConfig where
  PageOffset : GoString := []
  PageLimit : GoString := []
  Sort_ : GetAllVehiclesSortByType := []
  IncludeTrip : Bool := false
  IncludeStop : Bool := false
  IncludeRoute : Bool := false
  FilterIDs : List GoString := []
  FilterTripIDs : List GoString := []
  FilterLabels : List GoString := []
  FilterRouteIDs : List GoString := []
  FilterDirectionID : GoString := []
  FilterRouteTypes : List GoString := []
  deriving DecidableEq, Repr

/-- The struct `GetVehicleRequestConfig` of `vehicles.go`. -/
structure GetVehicleRequestConfig where
  IncludeTrip : Bool := false
  IncludeStop : Bool := false
  IncludeRoute : Bool := false
  deriving DecidableEq, Repr

/-- The local `includes` of `GetVehicleRequestConfig.addHTTPParamsToRequest`
after its three `append`s. -/
def GetVehicleRequestConfig.includes (config : GetVehicleRequestConfig) : List GoString :=
  let includes : List GoString := []
  let includes := if config.IncludeTrip then includes ++ [str "trip"] else includes
  let includes := if config.IncludeStop then includes ++ [str "stop"] else includes
  let includes := if config.IncludeRoute then includes ++ [str "route"] else includes
  includes

/-- The method `GetVehicleRequestConfig.addHTTPParamsToRequest` of
`vehicles.go`, on a non-nil request. -/
def GetVehicleRequestConfig.addHTTPParamsToRequest (config : GetVehicleRequestConfig)
    (req : Request) : Request :=
  let q := req.URL.Query
  let includes := config.includes
  if includes.length > 0 then
    let includesString := Join includes (str ",")
    let q := q.Add (str "include") includesString
    req.setRawQuery q.Encode
  else req

/-- The method `GetAllVehiclesRequestConfig.addHTTPParamsToRequest` of
`vehicles.go`, on a non-nil request. -/
def GetAllVehiclesRequestConfig.addHTTPParamsToRequest (config : GetAllVehiclesRequestConfig)
    (req : Request) : Request :=
  let includes : GetVehicleRequestConfig :=
    { IncludeTrip := config.IncludeTrip
      IncludeStop := config.IncludeStop
      IncludeRoute := config.IncludeRoute }
  let req := includes.addHTTPParamsToRequest req
  let q := req.URL.Query
  let q := addToQuery q (str "page[offset]") config.PageOffset
  let q := addToQuery q (str "page[limit]") config.PageLimit
  let q := addToQuery q (str "sort") config.Sort_
  let q := addToQuery q (str "filter[direction_id]") config.FilterDirectionID
  let q := addCommaSeparatedListToQuery q (str "filter[id]") config.FilterIDs
  let q := addCommaSeparatedListToQuery q (str "filter[trip]") config.FilterTripIDs
  let q := addCommaSeparatedListToQuery q (str "filter[label]") config.FilterLabels
  let q := addCommaSeparatedListToQuery q (str "filter[route]") config.FilterRouteIDs
  let q := addCommaSeparatedListToQuery q (str "filter[route_type]") config.FilterRouteTypes
  req.setRawQuery q.Encode

/-- The method `VehicleService.GetAllVehiclesContext`.  The request pointer
that `newRequest` returns is used before the error is looked at:
`addHTTPParamsToRequest` reads `req.URL` first thing, which panics on a nil
`req`. -/
def GetAllVehiclesContext {V : Type} (s : Client V) (ctx : Context)
    (config : GetAllVehiclesRequestConfig) : Run (List V) :=
  let call1 := Call.newRequest (str "GET") vehiclesAPIPath
  match s.newRequest (str "GET") vehiclesAPIPath with
  | (none, _) => { calls := [call1], outcome := Outcome.nilPointerDereference }
  | (some req, err) =>
    let req := config.addHTTPParamsToRequest req
    let req := req.WithContext ctx
    match err with
    | some e => { calls := [call1], outcome := Outcome.returned [] (some e) }
    | none =>
      let vehicles : List V := []
      let r := s.doList req vehicles
      { calls := [call1, Call.do_ req], outcome := Outcome.returned r.1 r.2 }

/-- The method `VehicleService.GetAllVehicles`. -/
def GetAllVehicles {V : Type} (s : Client V) (config : GetAllVehiclesRequestConfig) :
    Run (List V) :=
  GetAllVehiclesContext s Context.Background config

/-- The method `VehicleService.GetVehicleContext`; the request pointer is
used before the error is looked at, as in `GetAllVehiclesContext`. -/
def GetVehicleContext {V : Type} [Inhabited V] (s : Client V) (ctx : Context) (id : GoString)
    (config : GetVehicleRequestConfig) : Run V :=
  let path := Sprintf_s_s vehiclesAPIPath id
  let call1 := Call.newRequest (str "GET") path
  match s.newRequest (str "GET") path with
  | (none, _) => { calls := [call1], outcome := Outcome.nilPointerDereference }
  | (some req, err) =>
    let req := config.addHTTPParamsToRequest req
    let req := req.WithContext ctx
    match err with
    | some e => { calls := [call1], outcome := Outcome.returned default (some e) }
    | none =>
      let vehicle : V := default
      let r := s.doOne req vehicle
      { calls := [call1, Call.do_ req], outcome := Outcome.returned r.1 r.2 }

/-- The method `VehicleService.GetVehicle`. -/
def GetVehicle {V : Type} [Inhabited V] (s : Client V) (id : GoString)
    (config : GetVehicleRequestConfig) : Run V :=
  GetVehicleContext s Context.Background id config

end Vehicles

/-! ## vehicles_configs.go -/

namespace VehiclesConfigs

/-- The type `GetAllVehiclesSortByType`, a string. -/
abbrev GetAllVehiclesSortByType := GoString

def GetAllVehiclesSortByBearingAscending : GetAllVehiclesSortByType := str "bearing"
def GetAllVehiclesSortByBearingDescending : GetAllVehiclesSortByType := str "-bearing"
def GetAllVehiclesSortByCurrentStatusAscending : GetAllVehiclesSortByType := str "current_status"
def GetAllVehiclesSortByCurrentStatusDescending : GetAllVehiclesSortByType := str "-current_status"
def GetAllVehiclesSortByCurrentStopSequenceAscending : GetAllVehiclesSortByType :=
  str "current_stop_sequence"
def GetAllVehiclesSortByCurrentStopSequenceDescending : GetAllVehiclesSortByType :=
  str "-current_stop_sequence"
def GetAllVehiclesSortByDirectionIDAscending : GetAllVehiclesSortByType := str "direction_id"
def GetAllVehiclesSortByDirectionIDDescending : GetAllVehiclesSortByType := str "-direction_id"
def GetAllVehiclesSortByLabelAscending : GetAllVehiclesSortByType := str "label"
def GetAllVehiclesSortByLabelDescending : GetAllVehiclesSortByType := str "-label"
def GetAllVehiclesSortByLatitudeAscending : GetAllVehiclesSortByType := str "latitude"
def GetAllVehiclesSortByLatitudeDescending : GetAllVehiclesSortByType := str "-latitude"
def GetAllVehiclesSortByLongitudeAscending : GetAllVehiclesSortByType := str "longitude"
def GetAllVehiclesSortByLongitudeDescending : GetAllVehiclesSortByType := str "-longitude"
def GetAllVehiclesSortBySpeedAscending : GetAllVehiclesSortByType := str "speed"
def GetAllVehiclesSortBySpeedDescending : GetAllVehiclesSortByType := str "-speed"
def GetAllVehiclesSortByUpdatedAtAscending : GetAllVehiclesSortByType := str "updated_at"
def GetAllVehiclesSortByUpdatedAtDescending : GetAllVehiclesSortByType := str "-updated_at"

/-- The struct `GetAllVehiclesRequestConfig` of `vehicles_configs.go` (its
field `Sort` is `Sort_` here, `Sort` being reserved). -/
structure GetAllVehiclesRequestConfig where
  PageOffset : GoString := []
  PageLimit : GoString := []
  Sort_ : GetAllVehiclesSortByType := []
  Fields : List GoString := []
  IncludeTrip : Bool := false
  IncludeStop : Bool := false
  IncludeRoute : Bool := false
  FilterIDs : List GoString := []
  FilterTripIDs : List GoString := []
  FilterLabels : List GoString := []
  FilterRouteIDs : List GoString := []
  FilterDirectionID : GoString := []
  FilterRouteTypes : List GoString := []
  deriving DecidableEq, Repr

/-- The struct `GetVehicleRequestConfig` of `vehicles_configs.go`. -/
structure GetVehicleRequestConfig where
  Fields : List GoString := []
  IncludeTrip : Bool := false
  IncludeStop : Bool := false
  IncludeRoute : Bool := false
  deriving DecidableEq, Repr

/-- The local `includes` of `GetVehicleRequestConfig.addHTTPParamsToRequest`
after its three `append`s. -/
def GetVehicleRequestConfig.includes (config : GetVehicleRequestConfig) : List GoString :=
  let includes : List GoString := []
  let includes := if config.IncludeTrip then includes ++ [str "trip"] else includes
  let includes := if config.IncludeStop then includes ++ [str "stop"] else includes
  let includes := if config.IncludeRoute then includes ++ [str "route"] else includes
  includes

/-- The method `GetVehicleRequestConfig.addHTTPParamsToRequest` of
`vehicles_configs.go`, on a non-nil request. -/
def GetVehicleRequestConfig.addHTTPParamsToRequest (config : GetVehicleRequestConfig)
    (req : Request) : Request :=
  let q := req.URL.Query
  let includes := config.includes
  let q := addCommaSeparatedListToQuery q (str "include") includes
  let q := addCommaSeparatedListToQuery q (str "fields[vehicle]") config.Fields
  req.setRawQuery q.Encode

/-- The method `GetAllVehiclesRequestConfig.addHTTPParamsToRequest` of
`vehicles_configs.go`, on a non-nil request. -/
def GetAllVehiclesRequestConfig.addHTTPParamsToRequest (config : GetAllVehiclesRequestConfig)
    (req : Request) : Request :=
  let includes : GetVehicleRequestConfig :=
    { Fields := config.Fields
      IncludeTrip := config.IncludeTrip
      IncludeStop := config.IncludeStop
      IncludeRoute := config.IncludeRoute }
  let req := includes.addHTTPParamsToRequest req
  let q := req.URL.Query
  let q := addToQuery q (str "page[offset]") config.PageOffset
  let q := addToQuery q (str "page[limit]") config.PageLimit
  let q := addToQuery q (str "sort") config.Sort_
  let q := addToQuery q (str "filter[direction_id]") config.FilterDirectionID
  let q := addCommaSeparatedListToQuery q (str "filter[id]") config.FilterIDs
  let q := addCommaSeparatedListToQuery q (str "filter[trip]") config.FilterTripIDs
  let q := addCommaSeparatedListToQuery q (str "filter[label]") config.FilterLabels
  let q := addCommaSeparatedListToQuery q (str "filter[route]") config.FilterRouteIDs
  let q := addCommaSeparatedListToQuery q (str "filter[route_type]") config.FilterRouteTypes
  req.setRawQuery q.Encode

end VehiclesConfigs

/-! ## Definitions for the statements -/

/-- The request `GET /vehicles` with an empty query. -/
def req0 : Request :=
  { Method := str "GET", URL := { Path := str "/vehicles", RawQuery := [] }, ctx := Context.Background }

/-- The key/value pairs in the order in which `Encode` writes them. -/
def Values.pairs (v : Values) : List (GoString × GoString) :=
  (v.keys.insertionSort (fun a b => strLE a b = true)).flatMap
    (fun k => (v.get k).map (fun x => (k, x)))

/-- The values that the pagination, sort and filter fields add under a key. -/
def listExtras (PageOffset PageLimit Sort_ FilterDirectionID : GoString)
    (FilterIDs FilterTripIDs FilterLabels FilterRouteIDs FilterRouteTypes : List GoString)
    (key : GoString) : List GoString :=
  (if PageOffset ≠ [] ∧ str "page[offset]" = key then [PageOffset] else []) ++
  (if PageLimit ≠ [] ∧ str "page[limit]" = key then [PageLimit] else []) ++
  (if Sort_ ≠ [] ∧ str "sort" = key then [Sort_] else []) ++
  (if FilterDirectionID ≠ [] ∧ str "filter[direction_id]" = key then [FilterDirectionID]
    else []) ++
  (if FilterIDs ≠ [] ∧ str "filter[id]" = key then [Join FilterIDs (str ",")] else []) ++
  (if FilterTripIDs ≠ [] ∧ str "filter[trip]" = key then [Join FilterTripIDs (str ",")]
    else []) ++
  (if FilterLabels ≠ [] ∧ str "filter[label]" = key then [Join FilterLabels (str ",")]
    else []) ++
  (if FilterRouteIDs ≠ [] ∧ str "filter[route]" = key then [Join FilterRouteIDs (str ",")]
    else []) ++
  (if FilterRouteTypes ≠ [] ∧ str "filter[route_type]" = key
    then [Join FilterRouteTypes (str ",")] else [])

/-- A client whose `newRequest` builds the request and whose `do` writes
into the destination before it reports a decoding failure, as
`json.Decoder.Decode` does when a later part of the body is malformed.
A vehicle is a number here. -/
def partialClient : Client Nat :=
  { newRequest := fun method path =>
      (some { Method := method, URL := { Path := path, RawQuery := [] },
              ctx := Context.Background }, none)
    doList := fun _ _ => ([7], some { msg := str "unexpected end of JSON input" })
    doOne := fun _ _ => (7, some { msg := str "unexpected end of JSON input" }) }

/-- The request that `newRequest` would build for `method` and `path` with
an empty query. -/
def emptyQueryRequest (method path : GoString) (ctx : Context) : Request :=
  { Method := method, URL := { Path := path, RawQuery := [] }, ctx := ctx }

/-- Every field of a `GetAllVehiclesRequestConfig` of `vehicles_configs.go`
is empty or false. -/
def VehiclesConfigs.GetAllVehiclesRequestConfig.isZero
    (c : VehiclesConfigs.GetAllVehiclesRequestConfig) : Prop :=
  c.PageOffset = [] ∧ c.PageLimit = [] ∧ c.Sort_ = [] ∧ c.Fields = [] ∧
  c.IncludeTrip = false ∧ c.IncludeStop = false ∧ c.IncludeRoute = false ∧
  c.FilterIDs = [] ∧ c.FilterTripIDs = [] ∧ c.FilterLabels = [] ∧ c.FilterRouteIDs = [] ∧
  c.FilterDirectionID = [] ∧ c.FilterRouteTypes = []

instance (c : VehiclesConfigs.GetAllVehiclesRequestConfig) : Decidable c.isZero := by
  unfold VehiclesConfigs.GetAllVehiclesRequestConfig.isZero
  infer_instance

/-- Every field of a `GetVehicleRequestConfig` of `vehicles_configs.go` is
empty or false. -/
def VehiclesConfigs.GetVehicleRequestConfig.isZero
    (c : VehiclesConfigs.GetVehicleRequestConfig) : Prop :=
  c.Fields = [] ∧ c.IncludeTrip = false ∧ c.IncludeStop = false ∧ c.IncludeRoute = false

instance (c : VehiclesConfigs.GetVehicleRequestConfig) : Decidable c.isZero := by
  unfold VehiclesConfigs.GetVehicleRequestConfig.isZero
  infer_instance

/-- The sub-sequence of `trip`, `stop`, `route`, in that order, of the
names whose flag is true. -/
def includeNames (trip stop route : Bool) : List GoString :=
  ([(trip, str "trip"), (stop, str "stop"), (route, str "route")].filter (fun p => p.1)).map
    (fun p => p.2)

/-- The values that the three flags add under `include`: none when no flag
is set, otherwise the one comma-join of the names whose flag is true. -/
def includeValues (trip stop route : Bool) : List GoString :=
  if trip || stop || route then [(str ",").intercalate (includeNames trip stop route)] else []

/-- The value that a list-valued field adds under its key: none when the
list is empty, otherwise its elements joined by a comma. -/
def listValues (xs : List GoString) : List GoString :=
  if xs = [] then [] else [(str ",").intercalate xs]

/-- The eighteen declared sort constants of `vehicles_configs.go`, each
ascending one followed by its descending one. -/
def VehiclesConfigs.sortConstants : List (GoString × GoString) :=
  [ (VehiclesConfigs.GetAllVehiclesSortByBearingAscending,
      VehiclesConfigs.GetAllVehiclesSortByBearingDescending),
    (VehiclesConfigs.GetAllVehiclesSortByCurrentStatusAscending,
      VehiclesConfigs.GetAllVehiclesSortByCurrentStatusDescending),
    (VehiclesConfigs.GetAllVehiclesSortByCurrentStopSequenceAscending,
      VehiclesConfigs.GetAllVehiclesSortByCurrentStopSequenceDescending),
    (VehiclesConfigs.GetAllVehiclesSortByDirectionIDAscending,
      VehiclesConfigs.GetAllVehiclesSortByDirectionIDDescending),
    (VehiclesConfigs.GetAllVehiclesSortByLabelAscending,
      VehiclesConfigs.GetAllVehiclesSortByLabelDescending),
    (VehiclesConfigs.GetAllVehiclesSortByLatitudeAscending,
      VehiclesConfigs.GetAllVehiclesSortByLatitudeDescending),
    (VehiclesConfigs.GetAllVehiclesSortByLongitudeAscending,
      VehiclesConfigs.GetAllVehiclesSortByLongitudeDescending),
    (VehiclesConfigs.GetAllVehiclesSortBySpeedAscending,
      VehiclesConfigs.GetAllVehiclesSortBySpeedDescending),
    (VehiclesConfigs.GetAllVehiclesSortByUpdatedAtAscending,
      VehiclesConfigs.GetAllVehiclesSortByUpdatedAtDescending) ]

/-! ## Escaping round trip -/

set_option maxRecDepth 100000 in
theorem escapeByte_facts : ∀ c : Byte,
    (c.val = 32 → c = 32) ∧
    (shouldEscape c = true →
      ishex (upperhex (c.val >>> 4)) = true ∧ ishex (upperhex (c.val &&& 15)) = true ∧
      (Fin.ofNat (unhex (upperhex (c.val >>> 4)) <<< 4 ||| unhex (upperhex (c.val &&& 15))) : Byte) = c) ∧
    (shouldEscape c = false → c.val ≠ 37 ∧ c.val ≠ 43) := by
  decide

set_option maxRecDepth 100000 in
theorem escapeByte_all_clean : ∀ c : Byte,
    (escapeByte c).all (fun b => decide (b.val ≠ 38 ∧ b.val ≠ 61 ∧ b.val ≠ 59)) = true := by
  decide

theorem escapeByte_clean (c b : Byte) (hb : b ∈ escapeByte c) :
    b.val ≠ 38 ∧ b.val ≠ 61 ∧ b.val ≠ 59 := by
  have h := escapeByte_all_clean c
  rw [List.all_eq_true] at h
  simpa using h b hb

theorem QueryUnescape_percent (a b : Byte) (t : GoString) :
    QueryUnescape (37 :: a :: b :: t) =
      if ishex a && ishex b then
        (QueryUnescape t).map (fun u => (Fin.ofNat (unhex a <<< 4 ||| unhex b) : Byte) :: u)
      else none := by
  rw [QueryUnescape]
  rfl

theorem QueryUnescape_plain (c : Byte) (t : GoString) (h1 : c.val ≠ 37) (h2 : c.val ≠ 43) :
    QueryUnescape (c :: t) = (QueryUnescape t).map (fun u => c :: u) := by
  rcases t with _ | ⟨a, _ | ⟨b, t⟩⟩ <;> simp [QueryUnescape, h1, h2]

theorem QueryUnescape_plus_of (c : Byte) (t : GoString) (h2 : c.val = 43) :
    QueryUnescape (c :: t) = (QueryUnescape t).map (fun u => (32 : Byte) :: u) := by
  rcases t with _ | ⟨a, _ | ⟨b, t⟩⟩ <;> simp [QueryUnescape, h2]

theorem QueryUnescape_plus (t : GoString) :
    QueryUnescape (43 :: t) = (QueryUnescape t).map (fun u => (32 : Byte) :: u) :=
  QueryUnescape_plus_of 43 t (by decide)

theorem QueryUnescape_escapeByte_append (c : Byte) (t : GoString) :
    QueryUnescape (escapeByte c ++ t) = (QueryUnescape t).map (fun u => c :: u) := by
  obtain ⟨h1, h2, h3⟩ := escapeByte_facts c
  unfold escapeByte
  by_cases hs : c.val = 32
  · rw [if_pos hs]
    have hc := h1 hs
    subst hc
    exact QueryUnescape_plus t
  · rw [if_neg hs]
    cases he : shouldEscape c
    · obtain ⟨ha, hb⟩ := h3 he
      simpa using QueryUnescape_plain c t ha hb
    · obtain ⟨ha, hb, hc⟩ := h2 he
      simp only [if_true, List.cons_append, List.nil_append]
      rw [QueryUnescape_percent, ha, hb, hc]
      rfl

theorem QueryUnescape_QueryEscape (s : GoString) : QueryUnescape (QueryEscape s) = some s := by
  induction s with
  | nil => rfl
  | cons c s ih =>
    have h : QueryEscape (c :: s) = escapeByte c ++ QueryEscape s := by
      simp [QueryEscape, List.flatMap_cons]
    rw [h, QueryUnescape_escapeByte_append, ih]
    rfl

theorem QueryEscape_clean (s : GoString) : ∀ b ∈ QueryEscape s,
    b.val ≠ 38 ∧ b.val ≠ 61 ∧ b.val ≠ 59 := by
  intro b hb
  simp only [QueryEscape, List.mem_flatMap] at hb
  obtain ⟨c, _, hc⟩ := hb
  exact escapeByte_clean c b hc

/-! ## `Values`: reads after writes -/

theorem Values.get_Add (m : Values) (k x key : GoString) :
    (m.Add k x).get key = if k = key then m.get key ++ [x] else m.get key := by
  induction m with
  | nil =>
    by_cases h : k = key <;> simp [Values.Add, Values.get, h]
  | cons p m ih =>
    obtain ⟨k1, xs⟩ := p
    by_cases h1 : k1 = k
    · subst h1
      by_cases h : k1 = key <;> simp [Values.Add, Values.get, h]
    · by_cases h2 : k1 = key
      · subst h2
        have h3 : ¬ k = k1 := fun e => h1 e.symm
        simp [Values.Add, Values.get, h1, h3]
      · simp [Values.Add, Values.get, h1, h2, ih]

theorem Values.get_foldl_Add (ps : List (GoString × GoString)) (m : Values) (key : GoString) :
    (ps.foldl (fun m p => m.Add p.1 p.2) m).get key =
      m.get key ++ (ps.filter (fun p => decide (p.1 = key))).map Prod.snd := by
  induction ps generalizing m with
  | nil => simp
  | cons p ps ih =>
    rw [List.foldl_cons, ih, Values.get_Add]
    by_cases h : p.1 = key <;> simp [h]

theorem Values.get_of_not_mem_keys (v : Values) (key : GoString) (h : key ∉ v.keys) :
    v.get key = [] := by
  simp only [Values.keys, List.mem_dedup] at h
  induction v with
  | nil => rfl
  | cons p v ih =>
    obtain ⟨k1, xs⟩ := p
    simp only [List.map_cons, List.mem_cons, not_or] at h
    have h1 : ¬ k1 = key := fun e => h.1 e.symm
    simp [Values.get, h1, ih h.2]

theorem filter_pairs_of_keys (v : Values) (key : GoString) (ks : List GoString) (hks : ks.Nodup) :
    ((ks.flatMap (fun k => (v.get k).map (fun x => (k, x)))).filter
        (fun p => decide (p.1 = key))).map Prod.snd =
      if key ∈ ks then v.get key else [] := by
  induction ks with
  | nil => simp
  | cons k ks ih =>
    rw [List.nodup_cons] at hks
    rw [List.flatMap_cons, List.filter_append, List.map_append, ih hks.2]
    by_cases h : k = key
    · subst h
      have e : ((v.get k).map (fun x => (k, x))).filter (fun p => decide (p.1 = k)) =
          (v.get k).map (fun x => (k, x)) := by
        rw [List.filter_eq_self]
        intro p hp
        simp only [List.mem_map] at hp
        obtain ⟨x, _, rfl⟩ := hp
        simp
      rw [e]
      simp [hks.1, Function.comp_def]
    · have e : ((v.get k).map (fun x => (k, x))).filter (fun p => decide (p.1 = key)) = [] := by
        rw [List.filter_eq_nil_iff]
        intro p hp
        simp only [List.mem_map] at hp
        obtain ⟨x, _, rfl⟩ := hp
        simp [h]
      have h2 : ¬ key = k := fun e => h e.symm
      rw [e]
      simp [h2]

/-! ## Parsing what `Encode` wrote -/

theorem pieces_clean (p : GoString) (h : ∀ b ∈ p, b.val ≠ 38) : pieces p = [p] := by
  induction p with
  | nil => rfl
  | cons c p ih =>
    have hc : c.val ≠ 38 := h c (List.mem_cons_self _ _)
    have hp : ∀ b ∈ p, b.val ≠ 38 := fun b hb => h b (List.mem_cons_of_mem _ hb)
    simp [pieces, hc, ih hp]

theorem pieces_append (p rest : GoString) (h : ∀ b ∈ p, b.val ≠ 38) :
    pieces (p ++ (38 : Byte) :: rest) = p :: pieces rest := by
  induction p with
  | nil =>
    have e : ((38 : Byte)).val = 38 := by decide
    simp [pieces, e]
  | cons c p ih =>
    have hc : c.val ≠ 38 := h c (List.mem_cons_self _ _)
    have hp : ∀ b ∈ p, b.val ≠ 38 := fun b hb => h b (List.mem_cons_of_mem _ hb)
    simp [pieces, hc, ih hp]

theorem pieces_Join (ps : List GoString) (h : ∀ p ∈ ps, ∀ b ∈ p, b.val ≠ 38) (hne : ps ≠ []) :
    pieces (Join ps [38]) = ps := by
  induction ps with
  | nil => exact absurd rfl hne
  | cons p ps ih =>
    have hp := h p (List.mem_cons_self _ _)
    cases ps with
    | nil => simpa [Join] using pieces_clean p hp
    | cons q qs =>
      have hq : ∀ r ∈ q :: qs, ∀ b ∈ r, b.val ≠ 38 := fun r hr => h r (List.mem_cons_of_mem _ hr)
      have e : Join (p :: q :: qs) [38] = p ++ (38 : Byte) :: Join (q :: qs) [38] := by
        simp [Join]
      rw [e, pieces_append p _ hp, ih hq (by simp)]

theorem Cut_append (a b : GoString) (sep : Byte) (h : ∀ c ∈ a, c ≠ sep) :
    Cut (a ++ sep :: b) sep = (a, b, true) := by
  induction a with
  | nil => simp [Cut]
  | cons c a ih =>
    have hc : c ≠ sep := h c (List.mem_cons_self _ _)
    have ha : ∀ d ∈ a, d ≠ sep := fun d hd => h d (List.mem_cons_of_mem _ hd)
    simp [Cut, hc, ih ha]

theorem encodePair_clean (k x : GoString) : ∀ b ∈ encodePair k x, b.val ≠ 38 ∧ b.val ≠ 59 := by
  intro b hb
  simp only [encodePair, List.mem_append, List.mem_singleton] at hb
  rcases hb with (hb | hb) | hb
  · exact ⟨(QueryEscape_clean k b hb).1, (QueryEscape_clean k b hb).2.2⟩
  · subst hb
    decide
  · exact ⟨(QueryEscape_clean x b hb).1, (QueryEscape_clean x b hb).2.2⟩

theorem parseStep_encodePair (m : Values) (k x : GoString) :
    parseStep m (encodePair k x) = m.Add k x := by
  have h1 : (encodePair k x).any (fun b => decide (b.val = 59)) = false := by
    rw [List.any_eq_false]
    intro b hb
    simpa using (encodePair_clean k x b hb).2
  have h2 : encodePair k x ≠ [] := by simp [encodePair]
  have h3 : Cut (encodePair k x) 61 = (QueryEscape k, QueryEscape x, true) := by
    have e : encodePair k x = QueryEscape k ++ (61 : Byte) :: QueryEscape x := by
      simp [encodePair]
    rw [e]
    apply Cut_append
    intro c hc hcs
    exact (QueryEscape_clean k c hc).2.1 (by rw [hcs]; decide)
  simp [parseStep, h1, h2, h3, QueryUnescape_QueryEscape]

theorem foldl_parseStep_encodePair (ps : List (GoString × GoString)) (m : Values) :
    (ps.map (fun p => encodePair p.1 p.2)).foldl parseStep m =
      ps.foldl (fun m p => m.Add p.1 p.2) m := by
  induction ps generalizing m with
  | nil => rfl
  | cons p ps ih => simp [List.foldl_cons, parseStep_encodePair, ih]

theorem Values.Encode_eq_pairs (v : Values) :
    v.Encode = Join (v.pairs.map (fun p => encodePair p.1 p.2)) [38] := by
  simp [Values.Encode, Values.pairs, List.map_flatMap, Function.comp_def]

theorem ParseQuery_Encode (v : Values) :
    ParseQuery v.Encode = v.pairs.foldl (fun (m : Values) p => m.Add p.1 p.2) [] := by
  rw [Values.Encode_eq_pairs]
  by_cases h : v.pairs = []
  · rw [h]
    rfl
  · have hne : v.pairs.map (fun p => encodePair p.1 p.2) ≠ [] := by simpa using h
    have hc : ∀ q ∈ v.pairs.map (fun p => encodePair p.1 p.2), ∀ b ∈ q, b.val ≠ 38 := by
      intro q hq b hb
      simp only [List.mem_map] at hq
      obtain ⟨p, _, rfl⟩ := hq
      exact (encodePair_clean p.1 p.2 b hb).1
    rw [ParseQuery, pieces_Join _ hc hne, foldl_parseStep_encodePair]

/-- Parsing what `Encode` wrote gives back every key with its values. -/
theorem get_ParseQuery_Encode (v : Values) (key : GoString) :
    (ParseQuery v.Encode).get key = v.get key := by
  rw [ParseQuery_Encode, Values.get_foldl_Add]
  have hnd : (v.keys.insertionSort (fun a b => strLE a b = true)).Nodup :=
    (List.perm_insertionSort _ _).nodup_iff.mpr (List.nodup_dedup _)
  rw [Values.pairs, filter_pairs_of_keys v key _ hnd]
  by_cases hk : key ∈ v.keys
  · have hk2 : key ∈ v.keys.insertionSort (fun a b => strLE a b = true) :=
      (List.perm_insertionSort _ _).mem_iff.mpr hk
    simp [hk2, Values.get]
  · have hk2 : key ∉ v.keys.insertionSort (fun a b => strLE a b = true) :=
      fun h => hk ((List.perm_insertionSort _ _).mem_iff.mp h)
    simp [hk2, Values.get, Values.get_of_not_mem_keys v key hk]

/-! ## The order of the keys -/

theorem strLE_total (a b : GoString) : strLE a b = true ∨ strLE b a = true := by
  induction a generalizing b with
  | nil => simp [strLE]
  | cons x a ih =>
    cases b with
    | nil => simp [strLE]
    | cons y b =>
      rcases lt_trichotomy x y with h | h | h
      · simp [strLE, h]
      · subst h
        simpa [strLE] using ih b
      · simp [strLE, h]

theorem strLE_antisymm (a b : GoString) (h1 : strLE a b = true) (h2 : strLE b a = true) :
    a = b := by
  induction a generalizing b with
  | nil =>
    cases b with
    | nil => rfl
    | cons y b => simp [strLE] at h2
  | cons x a ih =>
    cases b with
    | nil => simp [strLE] at h1
    | cons y b =>
      rcases lt_trichotomy x y with h | h | h
      · have h3 : ¬ y < x := not_lt_of_lt h
        simp [strLE, h, h3] at h2
      · subst h
        simp only [strLE, lt_self_iff_false, if_false] at h1 h2
        rw [ih b h1 h2]
      · have h3 : ¬ x < y := not_lt_of_lt h
        simp [strLE, h, h3] at h1

theorem strLE_trans (a b c : GoString) (h1 : strLE a b = true) (h2 : strLE b c = true) :
    strLE a c = true := by
  induction a generalizing b c with
  | nil => simp [strLE]
  | cons x a ih =>
    cases b with
    | nil => simp [strLE] at h1
    | cons y b =>
      cases c with
      | nil => simp [strLE] at h2
      | cons z c =>
        rcases lt_trichotomy x y with hxy | hxy | hxy
        · rcases lt_trichotomy y z with hyz | hyz | hyz
          · simp [strLE, lt_trans hxy hyz]
          · subst hyz
            simp [strLE, hxy]
          · have h3 : ¬ y < z := not_lt_of_lt hyz
            simp [strLE, hyz, h3] at h2
        · subst hxy
          rcases lt_trichotomy x z with hyz | hyz | hyz
          · simp [strLE, hyz]
          · subst hyz
            simp only [strLE, lt_self_iff_false, if_false] at h1 h2 ⊢
            exact ih b c h1 h2
          · have h3 : ¬ x < z := not_lt_of_lt hyz
            simp [strLE, hyz, h3] at h2
        · have h3 : ¬ x < y := not_lt_of_lt hxy
          simp [strLE, hxy, h3] at h1

instance strLE_isTotal : IsTotal GoString (fun a b => strLE a b = true) := ⟨strLE_total⟩

instance strLE_isTrans : IsTrans GoString (fun a b => strLE a b = true) := ⟨strLE_trans⟩

instance strLE_isAntisymm : IsAntisymm GoString (fun a b => strLE a b = true) :=
  ⟨strLE_antisymm⟩

theorem insertionSort_congr_perm (l1 l2 : List GoString) (h : l1.Perm l2) :
    l1.insertionSort (fun a b => strLE a b = true) =
      l2.insertionSort (fun a b => strLE a b = true) :=
  List.eq_of_perm_of_sorted
    (((List.perm_insertionSort _ l1).trans h).trans (List.perm_insertionSort _ l2).symm)
    (List.sorted_insertionSort _ l1) (List.sorted_insertionSort _ l2)

theorem filter_insertionSort (l : List GoString) (P : GoString → Bool) :
    (l.insertionSort (fun a b => strLE a b = true)).filter P =
      (l.filter P).insertionSort (fun a b => strLE a b = true) :=
  List.eq_of_perm_of_sorted
    (((List.perm_insertionSort _ l).filter P).trans (List.perm_insertionSort _ (l.filter P)).symm)
    ((List.sorted_insertionSort _ l).filter P) (List.sorted_insertionSort _ (l.filter P))

theorem flatMap_filter_nonempty {β : Type} (l : List GoString) (f : GoString → List β)
    (P : GoString → Bool) (h : ∀ k, P k = false → f k = []) :
    l.flatMap f = (l.filter P).flatMap f := by
  induction l with
  | nil => rfl
  | cons k l ih =>
    cases hP : P k
    · simp [List.flatMap_cons, List.filter_cons, hP, h k hP, ih]
    · simp [List.flatMap_cons, List.filter_cons, hP, ih]

/-- What `Encode` writes depends only on the values that each key has. -/
theorem Values.Encode_congr (v w : Values) (h : ∀ k, v.get k = w.get k) :
    v.Encode = w.Encode := by
  have hf : (fun k => (v.get k).map (encodePair k)) = (fun k => (w.get k).map (encodePair k)) := by
    funext k
    rw [h k]
  have key : ∀ u : Values,
      (u.keys.insertionSort (fun a b => strLE a b = true)).flatMap
          (fun k => (u.get k).map (encodePair k)) =
        ((u.keys.filter (fun k => !(u.get k).isEmpty)).insertionSort
          (fun a b => strLE a b = true)).flatMap (fun k => (u.get k).map (encodePair k)) := by
    intro u
    rw [← filter_insertionSort]
    apply flatMap_filter_nonempty
    intro k hk
    have : u.get k = [] := by simpa using hk
    simp [this]
  have hperm : (v.keys.filter (fun k => !(v.get k).isEmpty)).Perm
      (w.keys.filter (fun k => !(w.get k).isEmpty)) := by
    apply (List.perm_ext_iff_of_nodup ((List.nodup_dedup _).filter _)
      ((List.nodup_dedup _).filter _)).mpr
    intro a
    simp only [List.mem_filter]
    constructor
    · rintro ⟨_, h2⟩
      rw [h a] at h2
      refine ⟨?_, h2⟩
      by_contra hn
      simp [Values.get_of_not_mem_keys w a hn] at h2
    · rintro ⟨_, h2⟩
      rw [← h a] at h2
      refine ⟨?_, h2⟩
      by_contra hn
      simp [Values.get_of_not_mem_keys v a hn] at h2
  unfold Values.Encode
  simp only []
  rw [key v, key w, insertionSort_congr_perm _ _ hperm, hf]

/-- Parsing what `Encode` wrote and encoding it again writes the same text. -/
theorem Encode_ParseQuery_Encode (v : Values) : (ParseQuery v.Encode).Encode = v.Encode :=
  Values.Encode_congr _ _ (get_ParseQuery_Encode v)

/-! ## What the encoders leave in the query -/

theorem Values.get_addToQuery (q : Values) (k x key : GoString) :
    (addToQuery q k x).get key = q.get key ++ (if x ≠ [] ∧ k = key then [x] else []) := by
  unfold addToQuery
  by_cases hx : x = []
  · simp [hx]
  · by_cases hk : k = key <;> simp [hx, hk, Values.get_Add]

theorem Values.get_addCommaSeparatedListToQuery (q : Values) (k : GoString) (xs : List GoString)
    (key : GoString) :
    (addCommaSeparatedListToQuery q k xs).get key =
      q.get key ++ (if xs ≠ [] ∧ k = key then [Join xs (str ",")] else []) := by
  unfold addCommaSeparatedListToQuery
  by_cases hx : xs = []
  · simp [hx]
  · by_cases hk : k = key <;> simp [hx, hk, Values.get_Add]

theorem Request.get_Query_setRawQuery_Encode (req : Request) (v : Values) (key : GoString) :
    (req.setRawQuery v.Encode).URL.Query.get key = v.get key :=
  get_ParseQuery_Encode v key

/-- What the single-item encoder of `vehicles.go` leaves under each key. -/
theorem Vehicles.get_Query_item_vehicles
    (config : Vehicles.GetVehicleRequestConfig) (req : Request) (key : GoString) :
    (config.addHTTPParamsToRequest req).URL.Query.get key =
      req.URL.Query.get key ++
        (if config.includes ≠ [] ∧ str "include" = key then [Join config.includes (str ",")]
          else []) := by
  unfold Vehicles.GetVehicleRequestConfig.addHTTPParamsToRequest
  by_cases h : config.includes = []
  · simp [h]
  · have hl : config.includes.length > 0 := List.length_pos.mpr h
    simp only [hl, if_true]
    rw [Request.get_Query_setRawQuery_Encode, Values.get_Add]
    by_cases hk : str "include" = key <;> simp [h, hk]

/-- What the single-item encoder of `vehicles_configs.go` leaves under each
key. -/
theorem VehiclesConfigs.get_Query_item_configs
    (config : VehiclesConfigs.GetVehicleRequestConfig) (req : Request) (key : GoString) :
    (config.addHTTPParamsToRequest req).URL.Query.get key =
      req.URL.Query.get key ++
        (if config.includes ≠ [] ∧ str "include" = key then [Join config.includes (str ",")]
          else []) ++
        (if config.Fields ≠ [] ∧ str "fields[vehicle]" = key then [Join config.Fields (str ",")]
          else []) := by
  unfold VehiclesConfigs.GetVehicleRequestConfig.addHTTPParamsToRequest
  simp only []
  rw [Request.get_Query_setRawQuery_Encode, Values.get_addCommaSeparatedListToQuery,
    Values.get_addCommaSeparatedListToQuery]

/-- What the list encoder of `vehicles.go` leaves under each key. -/
theorem Vehicles.get_Query_list_vehicles
    (config : Vehicles.GetAllVehiclesRequestConfig) (req : Request) (key : GoString) :
    (config.addHTTPParamsToRequest req).URL.Query.get key =
      (Vehicles.GetVehicleRequestConfig.addHTTPParamsToRequest
        { IncludeTrip := config.IncludeTrip, IncludeStop := config.IncludeStop,
          IncludeRoute := config.IncludeRoute } req).URL.Query.get key ++
      listExtras config.PageOffset config.PageLimit config.Sort_ config.FilterDirectionID
        config.FilterIDs config.FilterTripIDs config.FilterLabels config.FilterRouteIDs
        config.FilterRouteTypes key := by
  unfold Vehicles.GetAllVehiclesRequestConfig.addHTTPParamsToRequest listExtras
  simp only []
  rw [Request.get_Query_setRawQuery_Encode]
  simp only [Values.get_addCommaSeparatedListToQuery, Values.get_addToQuery, List.append_assoc]

/-- What the list encoder of `vehicles_configs.go` leaves under each key. -/
theorem VehiclesConfigs.get_Query_list_configs
    (config : VehiclesConfigs.GetAllVehiclesRequestConfig) (req : Request) (key : GoString) :
    (config.addHTTPParamsToRequest req).URL.Query.get key =
      (VehiclesConfigs.GetVehicleRequestConfig.addHTTPParamsToRequest
        { Fields := config.Fields, IncludeTrip := config.IncludeTrip,
          IncludeStop := config.IncludeStop, IncludeRoute := config.IncludeRoute }
        req).URL.Query.get key ++
      listExtras config.PageOffset config.PageLimit config.Sort_ config.FilterDirectionID
        config.FilterIDs config.FilterTripIDs config.FilterLabels config.FilterRouteIDs
        config.FilterRouteTypes key := by
  unfold VehiclesConfigs.GetAllVehiclesRequestConfig.addHTTPParamsToRequest listExtras
  simp only []
  rw [Request.get_Query_setRawQuery_Encode]
  simp only [Values.get_addCommaSeparatedListToQuery, Values.get_addToQuery, List.append_assoc]

/-! ## The service operations -/

theorem Vehicles.path_eq (id : GoString) :
    Sprintf_s_s Vehicles.vehiclesAPIPath id = str "//vehicles/" ++ id := by
  have e : str "/" ++ Vehicles.vehiclesAPIPath ++ str "/" = str "//vehicles/" := by decide
  rw [Sprintf_s_s, e]

theorem Vehicles.GetVehicleContext_first_call {V : Type} [Inhabited V] (s : Client V)
    (ctx : Context) (id : GoString) (config : Vehicles.GetVehicleRequestConfig) :
    (Vehicles.GetVehicleContext s ctx id config).calls.head? =
      some (Call.newRequest (str "GET") (str "//vehicles/" ++ id)) := by
  unfold Vehicles.GetVehicleContext
  simp only [Vehicles.path_eq]
  rcases s.newRequest (str "GET") (str "//vehicles/" ++ id) with ⟨_ | req, _ | e⟩ <;> rfl

/-- C1 (what the code does): for every identifier, `GetVehicleContext` and
`GetVehicle` ask the client for a GET request whose path is `//vehicles/`
followed by the identifier, with two leading slashes, which is never the
path `/vehicles/` followed by the identifier; for the identifier `123` the
path is `//vehicles/123`. -/
theorem C1_GetVehicleContext_path_has_two_slashes {V : Type} [Inhabited V] (s : Client V)
    (ctx : Context) (id : GoString) (config : Vehicles.GetVehicleRequestConfig) :
    (Vehicles.GetVehicleContext s ctx id config).calls.head? =
        some (Call.newRequest (str "GET") (str "//vehicles/" ++ id)) ∧
      (Vehicles.GetVehicle s id config).calls.head? =
        some (Call.newRequest (str "GET") (str "//vehicles/" ++ id)) ∧
      str "//vehicles/" ++ id ≠ str "/vehicles/" ++ id ∧
      str "//vehicles/" ++ str "123" = str "//vehicles/123" := by
  refine ⟨Vehicles.GetVehicleContext_first_call s ctx id config,
    Vehicles.GetVehicleContext_first_call s Context.Background id config, ?_, by decide⟩
  · have e1 : str "//vehicles/" = 47 :: 47 :: str "vehicles/" := by decide
    have e2 : str "/vehicles/" = 47 :: 118 :: str "ehicles/" := by decide
    rw [e1, e2]
    intro hc
    simp only [List.cons_append, List.cons.injEq, true_and] at hc
    exact absurd hc.1 (by decide)

/-- C2 (what the code does): when `newRequest` returns no request, whatever
error comes with it, `GetAllVehiclesContext` and `GetVehicleContext` make
that one call and then panic on the nil request; they do not return the
error, and `do` is not called. -/
theorem C2_nil_request_panics {V : Type} [Inhabited V] (err : Option Error)
    (doList : Request → List V → List V × Option Error) (doOne : Request → V → V × Option Error)
    (ctx : Context) (lc : Vehicles.GetAllVehiclesRequestConfig) (id : GoString)
    (ic : Vehicles.GetVehicleRequestConfig) :
    Vehicles.GetAllVehiclesContext
        { newRequest := fun _ _ => (none, err), doList := doList, doOne := doOne } ctx lc =
      { calls := [Call.newRequest (str "GET") (str "/vehicles")],
        outcome := Outcome.nilPointerDereference } ∧
    Vehicles.GetVehicleContext
        { newRequest := fun _ _ => (none, err), doList := doList, doOne := doOne } ctx id ic =
      { calls := [Call.newRequest (str "GET") (str "//vehicles/" ++ id)],
        outcome := Outcome.nilPointerDereference } := by
  constructor
  · rfl
  · unfold Vehicles.GetVehicleContext
    simp only [Vehicles.path_eq]

/-- C3 (as stated, refuted): with a client whose `do` has written a vehicle
into the destination before it reports the failure, `GetAllVehiclesContext`
does not return an empty sequence and `GetVehicleContext` does not return
the zero-valued vehicle. -/
theorem C3_counterexample_do_wrote_destination :
    (¬ ∃ e, (Vehicles.GetAllVehiclesContext partialClient Context.Background {}).outcome =
        Outcome.returned [] (some e)) ∧
    (¬ ∃ e, (Vehicles.GetVehicleContext partialClient Context.Background (str "123") {}).outcome =
        Outcome.returned default (some e)) := by
  constructor
  · rintro ⟨e, h⟩
    have h2 : (Vehicles.GetAllVehiclesContext partialClient Context.Background {}).outcome =
        Outcome.returned [7] (some { msg := str "unexpected end of JSON input" }) := rfl
    rw [h2] at h
    simp at h
  · rintro ⟨e, h⟩
    have h2 : (Vehicles.GetVehicleContext partialClient Context.Background (str "123") {}).outcome =
        Outcome.returned 7 (some { msg := str "unexpected end of JSON input" }) := rfl
    rw [h2] at h
    simp at h

/-- C3 (amended): for every client, context, config and id, each operation
on its own: when `newRequest` succeeds for the list operation and its `do`
reports a failure, `GetAllVehiclesContext` returns that same non-nil error
together with exactly what `do` left in the destination, which started as
the nil sequence, so the empty sequence whenever `do` left the destination
as it was; and when `newRequest` succeeds for the item operation and its
`do` reports a failure, `GetVehicleContext` returns that same non-nil
error together with exactly what `do` left in the destination, which
started as the zero-valued vehicle, so the zero-valued vehicle whenever
`do` left the destination as it was. -/
theorem C3_do_failure_returns_destination_and_error {V : Type} [Inhabited V] (s : Client V)
    (ctx : Context) (lc : Vehicles.GetAllVehiclesRequestConfig) (id : GoString)
    (ic : Vehicles.GetVehicleRequestConfig) :
    (∀ (reqL : Request) (eL : Error),
      s.newRequest (str "GET") (str "/vehicles") = (some reqL, none) →
      (s.doList ((lc.addHTTPParamsToRequest reqL).WithContext ctx) []).2 = some eL →
      (Vehicles.GetAllVehiclesContext s ctx lc).outcome =
          Outcome.returned (s.doList ((lc.addHTTPParamsToRequest reqL).WithContext ctx) []).1
            (some eL) ∧
      ((s.doList ((lc.addHTTPParamsToRequest reqL).WithContext ctx) []).1 = [] →
        (Vehicles.GetAllVehiclesContext s ctx lc).outcome = Outcome.returned [] (some eL))) ∧
    (∀ (reqI : Request) (eI : Error),
      s.newRequest (str "GET") (str "//vehicles/" ++ id) = (some reqI, none) →
      (s.doOne ((ic.addHTTPParamsToRequest reqI).WithContext ctx) default).2 = some eI →
      (Vehicles.GetVehicleContext s ctx id ic).outcome =
          Outcome.returned (s.doOne ((ic.addHTTPParamsToRequest reqI).WithContext ctx) default).1
            (some eI) ∧
      ((s.doOne ((ic.addHTTPParamsToRequest reqI).WithContext ctx) default).1 = default →
        (Vehicles.GetVehicleContext s ctx id ic).outcome =
          Outcome.returned default (some eI))) := by
  constructor
  · intro reqL eL hL hdL
    have hL2 : s.newRequest (str "GET") Vehicles.vehiclesAPIPath = (some reqL, none) := hL
    have h1 : (Vehicles.GetAllVehiclesContext s ctx lc).outcome =
        Outcome.returned (s.doList ((lc.addHTTPParamsToRequest reqL).WithContext ctx) []).1
          (some eL) := by
      unfold Vehicles.GetAllVehiclesContext
      simp only [hL2, hdL]
    refine ⟨h1, ?_⟩
    intro h
    rw [h1, h]
  · intro reqI eI hI hdI
    have h2 : (Vehicles.GetVehicleContext s ctx id ic).outcome =
        Outcome.returned (s.doOne ((ic.addHTTPParamsToRequest reqI).WithContext ctx) default).1
          (some eI) := by
      unfold Vehicles.GetVehicleContext
      simp only [Vehicles.path_eq, hI, hdI]
    refine ⟨h2, ?_⟩
    intro h
    rw [h2, h]

/-- C3 (amended), at the client that wrote `7` before failing: both
premises hold for each operation there, and each returns the `7` with the
error. -/
theorem C3_do_failure_witness :
    (Vehicles.GetAllVehiclesContext partialClient Context.Background {}).outcome =
        Outcome.returned [7] (some { msg := str "unexpected end of JSON input" }) ∧
    (Vehicles.GetVehicleContext partialClient Context.Background (str "123") {}).outcome =
        Outcome.returned 7 (some { msg := str "unexpected end of JSON input" }) :=
  let h := C3_do_failure_returns_destination_and_error partialClient Context.Background {}
    (str "123") {}
  ⟨(h.1
      { Method := str "GET", URL := { Path := str "/vehicles", RawQuery := [] },
        ctx := Context.Background }
      { msg := str "unexpected end of JSON input" } rfl rfl).1,
   (h.2
      { Method := str "GET", URL := { Path := str "//vehicles/" ++ str "123", RawQuery := [] },
        ctx := Context.Background }
      { msg := str "unexpected end of JSON input" } rfl rfl).1⟩

/-! ## The raw query string -/

theorem VehiclesConfigs.item_RawQuery_congr (c : VehiclesConfigs.GetVehicleRequestConfig)
    (r1 r2 : Request) (h : r1.URL.RawQuery = r2.URL.RawQuery) :
    (c.addHTTPParamsToRequest r1).URL.RawQuery = (c.addHTTPParamsToRequest r2).URL.RawQuery := by
  simp only [VehiclesConfigs.GetVehicleRequestConfig.addHTTPParamsToRequest, URL.Query,
    Request.setRawQuery, h]

theorem VehiclesConfigs.list_RawQuery_congr (c : VehiclesConfigs.GetAllVehiclesRequestConfig)
    (r1 r2 : Request) (h : r1.URL.RawQuery = r2.URL.RawQuery) :
    (c.addHTTPParamsToRequest r1).URL.RawQuery = (c.addHTTPParamsToRequest r2).URL.RawQuery := by
  simp only [VehiclesConfigs.GetAllVehiclesRequestConfig.addHTTPParamsToRequest,
    VehiclesConfigs.GetVehicleRequestConfig.addHTTPParamsToRequest, URL.Query,
    Request.setRawQuery, h]

theorem Has_of_RawQuery_nil (req : Request) (key : GoString) (h : req.URL.RawQuery = []) :
    req.URL.Query.Has key = false := by
  rw [URL.Query, h]
  rfl

/-- C4 (as stated, refuted): with `PageOffset = "10"` and `PageLimit = "5"`
on a request with an empty query, the raw query string does not contain
the text `page[offset]=10&page[limit]=5`. -/
theorem C4_counterexample_raw_query_is_escaped_and_sorted :
    ¬ (str "page[offset]=10&page[limit]=5" <:+:
        (VehiclesConfigs.GetAllVehiclesRequestConfig.addHTTPParamsToRequest
          { PageOffset := str "10", PageLimit := str "5" } req0).URL.RawQuery) := by
  decide

/-- C4 (amended): with `PageOffset = "10"` and `PageLimit = "5"` and every
other field empty, on every request with an empty query the raw query
string is exactly `page%5Blimit%5D=5&page%5Boffset%5D=10` (the keys
sorted, their brackets escaped), and read back with `Query` it holds the
value `10` under `page[offset]` and the value `5` under `page[limit]`. -/
theorem C4_page_params_raw_query (method path : GoString) (ctx : Context) :
    (VehiclesConfigs.GetAllVehiclesRequestConfig.addHTTPParamsToRequest
        { PageOffset := str "10", PageLimit := str "5" }
        (emptyQueryRequest method path ctx)).URL.RawQuery =
      str "page%5Blimit%5D=5&page%5Boffset%5D=10" ∧
    (VehiclesConfigs.GetAllVehiclesRequestConfig.addHTTPParamsToRequest
        { PageOffset := str "10", PageLimit := str "5" }
        (emptyQueryRequest method path ctx)).URL.Query.get (str "page[offset]") = [str "10"] ∧
    (VehiclesConfigs.GetAllVehiclesRequestConfig.addHTTPParamsToRequest
        { PageOffset := str "10", PageLimit := str "5" }
        (emptyQueryRequest method path ctx)).URL.Query.get (str "page[limit]") = [str "5"] := by
  have h : (VehiclesConfigs.GetAllVehiclesRequestConfig.addHTTPParamsToRequest
        { PageOffset := str "10", PageLimit := str "5" }
        (emptyQueryRequest method path ctx)).URL.RawQuery =
      str "page%5Blimit%5D=5&page%5Boffset%5D=10" := by
    exact (VehiclesConfigs.list_RawQuery_congr _ (emptyQueryRequest method path ctx) req0
      rfl).trans (by decide)
  refine ⟨h, ?_, ?_⟩
  · rw [URL.Query, h]
    decide
  · rw [URL.Query, h]
    decide

theorem VehiclesConfigs.list_zero_RawQuery (req : Request) (h : req.URL.RawQuery = []) :
    (VehiclesConfigs.GetAllVehiclesRequestConfig.addHTTPParamsToRequest {} req).URL.RawQuery
      = [] := by
  rw [VehiclesConfigs.list_RawQuery_congr _ _ req0 h]
  decide

theorem VehiclesConfigs.item_zero_RawQuery (req : Request) (h : req.URL.RawQuery = []) :
    (VehiclesConfigs.GetVehicleRequestConfig.addHTTPParamsToRequest {} req).URL.RawQuery
      = [] := by
  rw [VehiclesConfigs.item_RawQuery_congr _ _ req0 h]
  decide

/-- C5: for every list config and every single-item config in which every
field is empty or false, encoding onto a request whose query is empty
leaves the raw query string empty, and the query has no `include` key. -/
theorem C5_zero_config_empty_query (lc : VehiclesConfigs.GetAllVehiclesRequestConfig)
    (ic : VehiclesConfigs.GetVehicleRequestConfig) (req : Request)
    (hl : lc.isZero) (hi : ic.isZero) (hq : req.URL.RawQuery = []) :
    (lc.addHTTPParamsToRequest req).URL.RawQuery = [] ∧
    (lc.addHTTPParamsToRequest req).URL.Query.Has (str "include") = false ∧
    (ic.addHTTPParamsToRequest req).URL.RawQuery = [] ∧
    (ic.addHTTPParamsToRequest req).URL.Query.Has (str "include") = false := by
  have e1 : lc = {} := by
    rcases lc with ⟨⟩
    simp only [VehiclesConfigs.GetAllVehiclesRequestConfig.isZero] at hl
    obtain ⟨h1, h2, h3, h4, h5, h6, h7, h8, h9, h10, h11, h12, h13⟩ := hl
    subst h1 h2 h3 h4 h5 h6 h7 h8 h9 h10 h11 h12 h13
    rfl
  have e2 : ic = {} := by
    rcases ic with ⟨⟩
    simp only [VehiclesConfigs.GetVehicleRequestConfig.isZero] at hi
    obtain ⟨h1, h2, h3, h4⟩ := hi
    subst h1 h2 h3 h4
    rfl
  subst e1 e2
  have r1 := VehiclesConfigs.list_zero_RawQuery req hq
  have r2 := VehiclesConfigs.item_zero_RawQuery req hq
  exact ⟨r1, Has_of_RawQuery_nil _ _ r1, r2, Has_of_RawQuery_nil _ _ r2⟩

/-- C5, at the zero configs and the request `GET /vehicles`. -/
theorem C5_zero_config_witness :
    (VehiclesConfigs.GetAllVehiclesRequestConfig.addHTTPParamsToRequest {} req0).URL.RawQuery
      = [] ∧
    (VehiclesConfigs.GetAllVehiclesRequestConfig.addHTTPParamsToRequest {}
      req0).URL.Query.Has (str "include") = false ∧
    (VehiclesConfigs.GetVehicleRequestConfig.addHTTPParamsToRequest {} req0).URL.RawQuery
      = [] ∧
    (VehiclesConfigs.GetVehicleRequestConfig.addHTTPParamsToRequest {}
      req0).URL.Query.Has (str "include") = false :=
  C5_zero_config_empty_query {} {} req0 (by decide) (by decide) rfl

/-! ## Joined values -/

theorem Join_eq_intercalate (xs : List GoString) (sep : GoString) :
    Join xs sep = sep.intercalate xs := by
  induction xs with
  | nil => rfl
  | cons x xs ih =>
    cases xs with
    | nil => simp [Join, List.intercalate]
    | cons y ys =>
      rw [Join, ih]
      simp [List.intercalate, List.intersperse]

theorem Vehicles.includes_eq_vehicles (c : Vehicles.GetVehicleRequestConfig) :
    c.includes = includeNames c.IncludeTrip c.IncludeStop c.IncludeRoute := by
  rcases c with ⟨_ | _, _ | _, _ | _⟩ <;> rfl

theorem VehiclesConfigs.includes_eq_configs (c : VehiclesConfigs.GetVehicleRequestConfig) :
    c.includes = includeNames c.IncludeTrip c.IncludeStop c.IncludeRoute := by
  rcases c with ⟨f, _ | _, _ | _, _ | _⟩ <;> rfl

theorem include_part (t s r : Bool) (key : GoString) :
    (if includeNames t s r ≠ [] ∧ str "include" = key
      then [Join (includeNames t s r) (str ",")] else []) =
    if str "include" = key then includeValues t s r else [] := by
  by_cases hk : str "include" = key
  · simp only [hk, and_true, if_true, Join_eq_intercalate, includeValues]
    cases t <;> cases s <;> cases r <;> decide
  · simp [hk]

theorem list_part (xs : List GoString) (k key : GoString) :
    (if xs ≠ [] ∧ k = key then [Join xs (str ",")] else []) =
    if k = key then listValues xs else [] := by
  by_cases hk : k = key <;> by_cases hx : xs = [] <;>
    simp [hk, hx, listValues, Join_eq_intercalate]

/-! ## The `include` parameter -/

theorem Vehicles.item_include (c : Vehicles.GetVehicleRequestConfig) (req : Request)
    (key : GoString) :
    (c.addHTTPParamsToRequest req).URL.Query.get key =
      req.URL.Query.get key ++
        (if str "include" = key then includeValues c.IncludeTrip c.IncludeStop c.IncludeRoute
          else []) := by
  rw [Vehicles.get_Query_item_vehicles, Vehicles.includes_eq_vehicles, include_part]

theorem VehiclesConfigs.item_include_fields (c : VehiclesConfigs.GetVehicleRequestConfig)
    (req : Request) (key : GoString) :
    (c.addHTTPParamsToRequest req).URL.Query.get key =
      req.URL.Query.get key ++
        (if str "include" = key then includeValues c.IncludeTrip c.IncludeStop c.IncludeRoute
          else []) ++
        (if str "fields[vehicle]" = key then listValues c.Fields else []) := by
  rw [VehiclesConfigs.get_Query_item_configs, VehiclesConfigs.includes_eq_configs, include_part,
    list_part]

theorem listExtras_include (a b c d : GoString) (e f g h i : List GoString) :
    listExtras a b c d e f g h i (str "include") = [] := by
  simp +decide [listExtras]

theorem listExtras_fields (a b c d : GoString) (e f g h i : List GoString) :
    listExtras a b c d e f g h i (str "fields[vehicle]") = [] := by
  simp +decide [listExtras]

/-- C6: for every combination of the three inclusion flags, each of the
four encoders (single-item and list, of `vehicles.go` and of
`vehicles_configs.go`) adds under `include` exactly the values
`includeValues`: nothing when all three flags are false, otherwise the one
comma-join of the names among `trip`, `stop`, `route`, in that order,
whose flag is true; only `IncludeTrip` gives `trip`, all three give
`trip,stop,route` (written `include=trip%2Cstop%2Croute` in the raw query
string, the comma escaped). -/
theorem C6_include_is_join_of_set_flags (vi : Vehicles.GetVehicleRequestConfig)
    (ci : VehiclesConfigs.GetVehicleRequestConfig) (vl : Vehicles.GetAllVehiclesRequestConfig)
    (cl : VehiclesConfigs.GetAllVehiclesRequestConfig) (req : Request) :
    (vi.addHTTPParamsToRequest req).URL.Query.get (str "include") =
      req.URL.Query.get (str "include") ++
        includeValues vi.IncludeTrip vi.IncludeStop vi.IncludeRoute ∧
    (ci.addHTTPParamsToRequest req).URL.Query.get (str "include") =
      req.URL.Query.get (str "include") ++
        includeValues ci.IncludeTrip ci.IncludeStop ci.IncludeRoute ∧
    (vl.addHTTPParamsToRequest req).URL.Query.get (str "include") =
      req.URL.Query.get (str "include") ++
        includeValues vl.IncludeTrip vl.IncludeStop vl.IncludeRoute ∧
    (cl.addHTTPParamsToRequest req).URL.Query.get (str "include") =
      req.URL.Query.get (str "include") ++
        includeValues cl.IncludeTrip cl.IncludeStop cl.IncludeRoute ∧
    includeValues false false false = [] ∧
    includeValues true false false = [str "trip"] ∧
    includeValues true true true = [str "trip,stop,route"] ∧
    (Vehicles.GetVehicleRequestConfig.addHTTPParamsToRequest
      { IncludeTrip := true, IncludeStop := true, IncludeRoute := true } req0).URL.RawQuery =
      str "include=trip%2Cstop%2Croute" := by
  refine ⟨?_, ?_, ?_, ?_, by decide, by decide, by decide, by decide⟩
  · rw [Vehicles.item_include]
    simp
  · rw [VehiclesConfigs.item_include_fields]
    simp +decide
  · rw [Vehicles.get_Query_list_vehicles, listExtras_include, Vehicles.item_include]
    simp
  · rw [VehiclesConfigs.get_Query_list_configs, listExtras_include,
      VehiclesConfigs.item_include_fields]
    simp +decide

/-! ## List-valued parameters and the sort parameter -/

theorem VehiclesConfigs.list_key (cl : VehiclesConfigs.GetAllVehiclesRequestConfig)
    (req : Request) (key : GoString) :
    (cl.addHTTPParamsToRequest req).URL.Query.get key =
      req.URL.Query.get key ++
        (if str "include" = key then includeValues cl.IncludeTrip cl.IncludeStop cl.IncludeRoute
          else []) ++
        (if str "fields[vehicle]" = key then listValues cl.Fields else []) ++
        listExtras cl.PageOffset cl.PageLimit cl.Sort_ cl.FilterDirectionID cl.FilterIDs
          cl.FilterTripIDs cl.FilterLabels cl.FilterRouteIDs cl.FilterRouteTypes key := by
  rw [VehiclesConfigs.get_Query_list_configs, VehiclesConfigs.item_include_fields]

/-- C7: for every list config and single-item config of
`vehicles_configs.go` and every request, each list-valued filter
(`FilterIDs`, `FilterTripIDs`, `FilterLabels`, `FilterRouteIDs`,
`FilterRouteTypes`) and `Fields` adds under its key, after what the query
already held, exactly `listValues`: for a non-empty list the one value
made of its elements joined by a single comma, in the caller's order
(`List.intercalate`: every element, no trailing separator); for
`["a","b","c"]` the value is `a,b,c` (written `filter%5Bid%5D=a%2Cb%2Cc`
in the raw query string, brackets and commas escaped). -/
theorem C7_list_values_are_comma_joined (cl : VehiclesConfigs.GetAllVehiclesRequestConfig)
    (ci : VehiclesConfigs.GetVehicleRequestConfig) (req : Request) :
    (cl.addHTTPParamsToRequest req).URL.Query.get (str "filter[id]") =
      req.URL.Query.get (str "filter[id]") ++ listValues cl.FilterIDs ∧
    (cl.addHTTPParamsToRequest req).URL.Query.get (str "filter[trip]") =
      req.URL.Query.get (str "filter[trip]") ++ listValues cl.FilterTripIDs ∧
    (cl.addHTTPParamsToRequest req).URL.Query.get (str "filter[label]") =
      req.URL.Query.get (str "filter[label]") ++ listValues cl.FilterLabels ∧
    (cl.addHTTPParamsToRequest req).URL.Query.get (str "filter[route]") =
      req.URL.Query.get (str "filter[route]") ++ listValues cl.FilterRouteIDs ∧
    (cl.addHTTPParamsToRequest req).URL.Query.get (str "filter[route_type]") =
      req.URL.Query.get (str "filter[route_type]") ++ listValues cl.FilterRouteTypes ∧
    (cl.addHTTPParamsToRequest req).URL.Query.get (str "fields[vehicle]") =
      req.URL.Query.get (str "fields[vehicle]") ++ listValues cl.Fields ∧
    (ci.addHTTPParamsToRequest req).URL.Query.get (str "fields[vehicle]") =
      req.URL.Query.get (str "fields[vehicle]") ++ listValues ci.Fields ∧
    (∀ xs : List GoString, xs ≠ [] → listValues xs = [(str ",").intercalate xs]) ∧
    listValues [str "a", str "b", str "c"] = [str "a,b,c"] ∧
    (VehiclesConfigs.GetAllVehiclesRequestConfig.addHTTPParamsToRequest
      { FilterIDs := [str "a", str "b", str "c"] } req0).URL.Query.get (str "filter[id]") =
      [str "a,b,c"] ∧
    (VehiclesConfigs.GetAllVehiclesRequestConfig.addHTTPParamsToRequest
      { FilterIDs := [str "a", str "b", str "c"] } req0).URL.RawQuery =
      str "filter%5Bid%5D=a%2Cb%2Cc" := by
  refine ⟨?_, ?_, ?_, ?_, ?_, ?_, ?_, ?_, by decide, by decide, by decide⟩
  · rw [VehiclesConfigs.list_key]
    simp +decide [listExtras, listValues, Join_eq_intercalate]
  · rw [VehiclesConfigs.list_key]
    simp +decide [listExtras, listValues, Join_eq_intercalate]
  · rw [VehiclesConfigs.list_key]
    simp +decide [listExtras, listValues, Join_eq_intercalate]
  · rw [VehiclesConfigs.list_key]
    simp +decide [listExtras, listValues, Join_eq_intercalate]
  · rw [VehiclesConfigs.list_key]
    simp +decide [listExtras, listValues, Join_eq_intercalate]
  · rw [VehiclesConfigs.list_key]
    simp +decide [listExtras, listValues, Join_eq_intercalate]
  · rw [VehiclesConfigs.item_include_fields]
    simp +decide
  · intro xs hx
    simp [listValues, hx]

/-- C8: each of the nine declared descending sort constants is `-` followed
by the ascending constant of the same field; for every list config and
request the encoder adds under `sort`, when `Sort` is non-empty, exactly
the raw token and nothing otherwise; for each of the eighteen declared
constants alone on a request with an empty query the raw query string is
`sort=` followed by the token, and for
`GetAllVehiclesSortBySpeedDescending` it is `sort=-speed`. -/
theorem C8_sort_token_is_emitted_raw (cl : VehiclesConfigs.GetAllVehiclesRequestConfig)
    (req : Request) (method path : GoString) (ctx : Context) :
    (∀ p ∈ VehiclesConfigs.sortConstants, p.2 = str "-" ++ p.1) ∧
    (cl.addHTTPParamsToRequest req).URL.Query.get (str "sort") =
      req.URL.Query.get (str "sort") ++ (if cl.Sort_ = [] then [] else [cl.Sort_]) ∧
    (∀ p ∈ VehiclesConfigs.sortConstants,
      (VehiclesConfigs.GetAllVehiclesRequestConfig.addHTTPParamsToRequest { Sort_ := p.1 }
        (emptyQueryRequest method path ctx)).URL.RawQuery = str "sort=" ++ p.1 ∧
      (VehiclesConfigs.GetAllVehiclesRequestConfig.addHTTPParamsToRequest { Sort_ := p.2 }
        (emptyQueryRequest method path ctx)).URL.RawQuery = str "sort=" ++ p.2) ∧
    (VehiclesConfigs.GetAllVehiclesRequestConfig.addHTTPParamsToRequest
        { Sort_ := VehiclesConfigs.GetAllVehiclesSortBySpeedDescending }
        (emptyQueryRequest method path ctx)).URL.RawQuery = str "sort=-speed" := by
  have hraw : ∀ p ∈ VehiclesConfigs.sortConstants,
      (VehiclesConfigs.GetAllVehiclesRequestConfig.addHTTPParamsToRequest { Sort_ := p.1 }
        req0).URL.RawQuery = str "sort=" ++ p.1 ∧
      (VehiclesConfigs.GetAllVehiclesRequestConfig.addHTTPParamsToRequest { Sort_ := p.2 }
        req0).URL.RawQuery = str "sort=" ++ p.2 := by
    decide
  refine ⟨by decide, ?_, ?_, ?_⟩
  · rw [VehiclesConfigs.list_key]
    by_cases h : cl.Sort_ = [] <;> simp +decide [listExtras, h]
  · intro p hp
    rw [VehiclesConfigs.list_RawQuery_congr _ (emptyQueryRequest method path ctx) req0 rfl,
      VehiclesConfigs.list_RawQuery_congr _ (emptyQueryRequest method path ctx) req0 rfl]
    exact hraw p hp
  · exact (VehiclesConfigs.list_RawQuery_congr _ (emptyQueryRequest method path ctx) req0
      rfl).trans (by decide)

/-! ## The two encoders of `vehicles_configs.go` compared -/

theorem Request.setRawQuery_reencode (req : Request) (v : Values) :
    (req.setRawQuery v.Encode).setRawQuery (req.setRawQuery v.Encode).URL.Query.Encode =
      req.setRawQuery v.Encode := by
  simp [Request.setRawQuery, URL.Query, Encode_ParseQuery_Encode]

/-- C9: for every list config `L` of `vehicles_configs.go` and every
request, the values under `include` and under `fields[vehicle]` after the
list encoder are those after the single-item encoder on the config with
the same `Fields` and flags; when the pagination, sort and filter fields
are all empty the two encoders leave the same request, so the same raw
query string; and the single-item encoder changes the values of no key
other than `include` and `fields[vehicle]`. -/
theorem C9_list_encoder_refines_item_encoder (L : VehiclesConfigs.GetAllVehiclesRequestConfig)
    (fields : List GoString) (trip stop route : Bool)
    (g : VehiclesConfigs.GetVehicleRequestConfig) (req : Request) :
    (L.addHTTPParamsToRequest req).URL.Query.get (str "include") =
      (VehiclesConfigs.GetVehicleRequestConfig.addHTTPParamsToRequest
        { Fields := L.Fields, IncludeTrip := L.IncludeTrip, IncludeStop := L.IncludeStop,
          IncludeRoute := L.IncludeRoute } req).URL.Query.get (str "include") ∧
    (L.addHTTPParamsToRequest req).URL.Query.get (str "fields[vehicle]") =
      (VehiclesConfigs.GetVehicleRequestConfig.addHTTPParamsToRequest
        { Fields := L.Fields, IncludeTrip := L.IncludeTrip, IncludeStop := L.IncludeStop,
          IncludeRoute := L.IncludeRoute } req).URL.Query.get (str "fields[vehicle]") ∧
    VehiclesConfigs.GetAllVehiclesRequestConfig.addHTTPParamsToRequest
        { Fields := fields, IncludeTrip := trip, IncludeStop := stop, IncludeRoute := route }
        req =
      VehiclesConfigs.GetVehicleRequestConfig.addHTTPParamsToRequest
        { Fields := fields, IncludeTrip := trip, IncludeStop := stop, IncludeRoute := route }
        req ∧
    (∀ key : GoString, key ≠ str "include" → key ≠ str "fields[vehicle]" →
      (g.addHTTPParamsToRequest req).URL.Query.get key = req.URL.Query.get key) := by
  refine ⟨?_, ?_, ?_, ?_⟩
  · rw [VehiclesConfigs.get_Query_list_configs, listExtras_include, List.append_nil]
  · rw [VehiclesConfigs.get_Query_list_configs, listExtras_fields, List.append_nil]
  · simp only [VehiclesConfigs.GetAllVehiclesRequestConfig.addHTTPParamsToRequest, addToQuery,
      addCommaSeparatedListToQuery, if_true]
    unfold VehiclesConfigs.GetVehicleRequestConfig.addHTTPParamsToRequest
    exact Request.setRawQuery_reencode _ _
  · intro key h1 h2
    have e1 : ¬ str "include" = key := fun e => h1 e.symm
    have e2 : ¬ str "fields[vehicle]" = key := fun e => h2 e.symm
    rw [VehiclesConfigs.item_include_fields]
    simp [e1, e2]

/-! ## The frame of the single-item encoder of `vehicles.go` -/

/-- C10: for every request and every single-item config of `vehicles.go`,
the encoder returns the request unchanged when no inclusion flag is set;
in every case the values of every key read back with `Query` are those the
query already held, followed under `include` alone by `includeValues`,
which is exactly one value when at least one flag is set; and the method,
the path and the context of the request are unchanged. -/
theorem C10_item_encoder_frame (c : Vehicles.GetVehicleRequestConfig) (req : Request)
    (key : GoString) :
    Vehicles.GetVehicleRequestConfig.addHTTPParamsToRequest
        { IncludeTrip := false, IncludeStop := false, IncludeRoute := false } req = req ∧
    (c.addHTTPParamsToRequest req).URL.Query.get key =
      req.URL.Query.get key ++
        (if key = str "include" then includeValues c.IncludeTrip c.IncludeStop c.IncludeRoute
          else []) ∧
    ((c.IncludeTrip || c.IncludeStop || c.IncludeRoute) = true →
      (includeValues c.IncludeTrip c.IncludeStop c.IncludeRoute).length = 1) ∧
    (c.addHTTPParamsToRequest req).Method = req.Method ∧
    (c.addHTTPParamsToRequest req).URL.Path = req.URL.Path ∧
    (c.addHTTPParamsToRequest req).ctx = req.ctx := by
  have hframe : (c.addHTTPParamsToRequest req).Method = req.Method ∧
      (c.addHTTPParamsToRequest req).URL.Path = req.URL.Path ∧
      (c.addHTTPParamsToRequest req).ctx = req.ctx := by
    unfold Vehicles.GetVehicleRequestConfig.addHTTPParamsToRequest
    by_cases h : c.includes.length > 0 <;> simp [h, Request.setRawQuery]
  refine ⟨rfl, ?_, ?_, hframe⟩
  · rw [Vehicles.item_include]
    by_cases h : key = str "include"
    · simp [h]
    · have h2 : ¬ str "include" = key := fun e => h e.symm
      simp [h, h2]
  · intro h
    simp [includeValues, h]

end Mbta
